import Mathlib

/-!
Verification of the SnapTriage Synchronization & Reconciliation Engine.

This file shallowly embeds the engine's core operations from the TypeScript
source and proves the specified properties about them:

* `src/features/triage/types.ts` — the pending-change merge algorithm
  (`mergePendingChanges`) and the provider-update derivation
  (`payloadToIssueUpdate`);
* the sync engine (`syncRepo`, `pushBatchChanges`);
* the issue PATCH route (live vs batch write path) and provider token
  resolution (`getProviderToken`);
* the GitHub transport wrapper (`ghFetch`, rate-limit retry).

JavaScript `Set` objects are modelled as insertion-ordered duplicate-free
lists; `undefined` vs explicit `null` on optional JSON fields is modelled as
`Option (Option _)`; timestamps are naturals; awaited calls that may reject
are modelled by environment-supplied `Except` oracles, and external calls are
recorded in an explicit trace.
-/

namespace SnapTriage

/-- Lifecycle state of an issue: `"open"` or `"closed"`. -/
inductive IssueState where
  | isOpen
  | isClosed
deriving DecidableEq

/-- JS `Set.prototype.add` on an insertion-ordered list: append if absent. -/
def setAdd (s : List String) (x : String) : List String :=
  if x ∈ s then s else s ++ [x]

/-- JS `Set.prototype.delete` on an insertion-ordered list. -/
def setDelete (s : List String) (x : String) : List String :=
  s.filter (fun y => y ≠ x)

/-- JS `new Set(list)`: dedup keeping first occurrences, in order. -/
def setOfList (l : List String) : List String :=
  l.foldl setAdd []

/-- The `{ add?: string[]; remove?: string[] }` shape used by `TriagePayload`
and `IssueUpdate` (both fields optional). -/
structure SetOps where
  add : Option (List String) := none
  remove : Option (List String) := none
deriving DecidableEq

/-- The `{ add: string[]; remove: string[] }` shape stored in
`PendingChanges` (both fields present). -/
structure PendingSetOps where
  add : List String
  remove : List String
deriving DecidableEq

/-- `TriagePayload` from `src/features/triage/types.ts`: what the user wants
to change on an issue.  An outer `none` is JS `undefined` (field absent); for
`priority` and `snoozedUntil` the inner `none` is an explicit JSON `null`. -/
structure TriagePayload where
  priority : Option (Option Int) := none
  snoozedUntil : Option (Option Nat) := none
  dismissed : Option Bool := none
  labels : Option SetOps := none
  assignees : Option SetOps := none
  state : Option IssueState := none
deriving DecidableEq

/-- `PendingChanges` from `src/features/triage/types.ts`: accumulated pending
changes stored in the DB for batch mode. -/
structure PendingChanges where
  priority : Option (Option Int) := none
  snoozedUntil : Option (Option Nat) := none
  dismissed : Option Bool := none
  labels : Option PendingSetOps := none
  assignees : Option PendingSetOps := none
  state : Option IssueState := none
deriving DecidableEq

/-- The body of the `if (incoming.labels)` / `if (incoming.assignees)` blocks
of `mergePendingChanges`: rebuild the add/remove JS Sets from the previous
pending lists, fold the incoming adds (cancel pending removal, add), then the
incoming removes (cancel pending addition, else record removal). -/
def mergeSetOps (prev : PendingSetOps) (incoming : SetOps) : PendingSetOps :=
  let sets0 : List String × List String := (setOfList prev.add, setOfList prev.remove)
  let sets1 := (incoming.add.getD []).foldl
    (fun sets l => (setAdd sets.1 l, setDelete sets.2 l)) sets0
  let sets2 := (incoming.remove.getD []).foldl
    (fun sets l =>
      if l ∈ sets.1 then (setDelete sets.1 l, sets.2)
      else (sets.1, setAdd sets.2 l)) sets1
  { add := sets2.1, remove := sets2.2 }

/-- `mergePendingChanges` from `src/features/triage/types.ts`: merge a new
payload into existing pending changes.  Scalar fields are last-write-wins on
presence (`!== undefined`); labels/assignees use `mergeSetOps`. -/
def mergePendingChanges (existing : PendingChanges) (incoming : TriagePayload) :
    PendingChanges :=
  let m0 := existing
  let m1 := if incoming.priority.isSome then { m0 with priority := incoming.priority } else m0
  let m2 := if incoming.snoozedUntil.isSome then
    { m1 with snoozedUntil := incoming.snoozedUntil } else m1
  let m3 := if incoming.dismissed.isSome then { m2 with dismissed := incoming.dismissed } else m2
  let m4 := if incoming.state.isSome then { m3 with state := incoming.state } else m3
  let m5 := match incoming.labels with
    | some inc => { m4 with labels := some (mergeSetOps (m4.labels.getD ⟨[], []⟩) inc) }
    | none => m4
  let m6 := match incoming.assignees with
    | some inc => { m5 with assignees := some (mergeSetOps (m5.assignees.getD ⟨[], []⟩) inc) }
    | none => m5
  m6

/-- `IssueUpdate` from `src/lib/provider-interface.ts`: the only shape that
crosses the trust boundary to a provider adapter's `updateIssue`. -/
structure IssueUpdate where
  labels : Option SetOps := none
  assignees : Option SetOps := none
  state : Option IssueState := none
deriving DecidableEq

/-- `payloadToIssueUpdate` from `src/features/triage/types.ts`: copy only the
truthy provider-relevant fields onto a fresh `IssueUpdate`. -/
def payloadToIssueUpdate (payload : TriagePayload) : IssueUpdate :=
  let u0 : IssueUpdate := {}
  let u1 := match payload.labels with
    | some l => { u0 with labels := some l }
    | none => u0
  let u2 := match payload.assignees with
    | some a => { u1 with assignees := some a }
    | none => u1
  let u3 := match payload.state with
    | some s => { u2 with state := some s }
    | none => u2
  u3

/-- `Object.keys(update).length` for an `IssueUpdate`: a key is present
exactly when the corresponding field was assigned. -/
def IssueUpdate.keyCount (u : IssueUpdate) : Nat :=
  (if u.labels.isSome then 1 else 0) + (if u.assignees.isSome then 1 else 0) +
    (if u.state.isSome then 1 else 0)

/-- TS structural assignability of `PendingChanges` to `TriagePayload`
(`string[]` is assignable to `string[] | undefined`), used where
`pushBatchChanges` passes stored pending changes to `payloadToIssueUpdate`. -/
def PendingSetOps.toSetOps (p : PendingSetOps) : SetOps :=
  { add := some p.add, remove := some p.remove }

/-- TS structural assignability of `PendingChanges` to `TriagePayload`. -/
def PendingChanges.toPayload (c : PendingChanges) : TriagePayload :=
  { priority := c.priority
    snoozedUntil := c.snoozedUntil
    dismissed := c.dismissed
    labels := c.labels.map PendingSetOps.toSetOps
    assignees := c.assignees.map PendingSetOps.toSetOps
    state := c.state }

/-- A single add or remove of one item (label or assignee). -/
inductive ItemOp where
  | addItem (l : String)
  | removeItem (l : String)
deriving DecidableEq

/-- The `{add, remove}` facet of the payload of a single-item operation. -/
def opSetOps : ItemOp → SetOps
  | .addItem l => { add := some [l], remove := none }
  | .removeItem l => { add := none, remove := some [l] }

/-- A single-item operation as a label-only triage payload. -/
def labelOpPayload (op : ItemOp) : TriagePayload :=
  { labels := some (opSetOps op) }

/-- A single-item operation as an assignee-only triage payload. -/
def assigneeOpPayload (op : ItemOp) : TriagePayload :=
  { assignees := some (opSetOps op) }

/-- Fold a sequence of single-label operations through `mergePendingChanges`,
starting from an empty accumulator. -/
def foldLabelOps (ops : List ItemOp) : PendingChanges :=
  ops.foldl (fun acc op => mergePendingChanges acc (labelOpPayload op)) {}

/-- Fold a sequence of single-assignee operations through
`mergePendingChanges`, starting from an empty accumulator. -/
def foldAssigneeOps (ops : List ItemOp) : PendingChanges :=
  ops.foldl (fun acc op => mergePendingChanges acc (assigneeOpPayload op)) {}

/-- The set-level fold underlying `foldLabelOps`/`foldAssigneeOps`. -/
def foldSetOps (ops : List ItemOp) (start : PendingSetOps) : PendingSetOps :=
  ops.foldl (fun prev op => mergeSetOps prev (opSetOps op)) start

/-- Modelled from the spec: the reference set-difference model of §4.3/§8 —
pending add/remove as mathematical sets, an add cancels a staged removal, a
removal of a pending-added item cancels the addition. -/
structure RefPending where
  add : Finset String
  remove : Finset String

/-- Modelled from the spec: one step of the reference model. -/
def refStep (s : RefPending) : ItemOp → RefPending
  | .addItem l => ⟨insert l s.add, s.remove.erase l⟩
  | .removeItem l =>
      if l ∈ s.add then ⟨s.add.erase l, s.remove⟩ else ⟨s.add, insert l s.remove⟩

/-- Modelled from the spec: fold operations through the reference model,
starting from empty sets. -/
def refFold (ops : List ItemOp) : RefPending :=
  ops.foldl refStep ⟨∅, ∅⟩

/-- Net effect of a reference add/remove pair on a base set. -/
def RefPending.applyTo (s : RefPending) (base : Finset String) : Finset String :=
  (base \ s.remove) ∪ s.add

/-- Apply a pending add/remove pair to a base list the way the engine's push
path mirrors changes into the local issue row (`new Set(base)`, add every
pending add, delete every pending remove). -/
def applyPendingSet (p : PendingSetOps) (base : List String) : List String :=
  p.remove.foldl setDelete (p.add.foldl setAdd (setOfList base))

/-- `ProviderIssue` from `src/lib/provider-interface.ts`: normalized issue
data fetched from a provider adapter. -/
structure ProviderIssue where
  providerIssueId : String
  number : Nat
  title : String
  body : Option String
  author : Option String
  authorAvatar : Option String
  state : IssueState
  labels : List String
  assignees : List String
  url : String
  createdAt : Nat
  updatedAt : Nat
deriving DecidableEq

/-- A row of the `repo` table (the fields the engine reads and writes). -/
structure Repo where
  id : String
  userId : String
  provider : String
  owner : String
  name : String
  syncMode : String
  syncEnabled : Bool
  lastSyncedAt : Option Nat
deriving DecidableEq

/-- A row of the `issue` table. -/
structure IssueRow where
  id : String
  repoId : String
  provider : String
  number : Nat
  title : String
  body : Option String
  author : Option String
  authorAvatar : Option String
  state : IssueState
  labels : List String
  assignees : List String
  url : String
  providerIssueId : String
  createdAt : Nat
  updatedAt : Nat
  fetchedAt : Nat
deriving DecidableEq

/-- A row of the `sync_log` audit table. -/
structure SyncLogRow where
  id : String
  repoId : String
  status : String
  issuesFetched : Option Nat
  error : Option String
  startedAt : Nat
  completedAt : Option Nat
deriving DecidableEq

/-- A row of the `triage_state` table. -/
structure TriageRow where
  id : String
  issueId : String
  userId : String
  priority : Option Int
  snoozedUntil : Option Nat
  dismissed : Bool
  batchPending : Bool
  pendingChanges : Option PendingChanges
  updatedAt : Nat
deriving DecidableEq

/-- A row of the Auth.js `account` table (the fields `getProviderToken`
reads); `access_token` is a nullable column. -/
structure OAuthAccount where
  userId : String
  provider : String
  access_token : Option String
deriving DecidableEq

/-- A row of the `accessTokens` (personal access token) table. -/
structure AccessTokenRow where
  userId : String
  provider : String
  token : String
deriving DecidableEq

/-- The relational store as read and written by the engine. -/
structure Db where
  repos : List Repo
  issues : List IssueRow
  syncLog : List SyncLogRow
  triage : List TriageRow
  accounts : List OAuthAccount
  accessTokens : List AccessTokenRow
deriving DecidableEq

/-- An outward call recorded in a trace: provider-token resolution, an
adapter `fetchIssues`, or an adapter `updateIssue`. -/
inductive ExtCall where
  | resolveToken (userId provider : String)
  | fetchIssues (owner name token : String) (since : Option Nat)
  | updateIssue (owner name : String) (number : Nat) (token : String) (update : IssueUpdate)
deriving DecidableEq

/-- `getProviderToken` from `src/features/auth/get-provider-token.ts`: prefer
the first matching OAuth account's `access_token` when it is truthy
(non-null and non-empty), else fall back to the first matching personal
access token, else none. -/
def getProviderToken (db : Db) (userId provider : String) : Option String :=
  let oauthAccounts := db.accounts.filter fun a =>
    a.userId == userId && a.provider == provider
  let patFallback :=
    (db.accessTokens.filter fun t => t.userId == userId && t.provider == provider).head?.map
      (fun t => t.token)
  match oauthAccounts.head? with
  | some a => if a.access_token.getD "" ≠ "" then a.access_token else patFallback
  | none => patFallback

/-- The provider registry of `src/lib/providers.ts`: `getProvider` succeeds
exactly for `"github"` and `"gitlab"` and throws otherwise. -/
def knownProvider (p : String) : Bool :=
  p == "github" || p == "gitlab"

/-- Result shape of `syncRepo` (`SyncResult` in the sync engine). -/
structure SyncResult where
  repoId : String
  status : String
  issuesFetched : Nat
  error : Option String
deriving DecidableEq

/-- Environment for one `syncRepo` call: the generated audit-log id, the
current time, and oracles for the awaited external steps — the outcome of
`getProviderToken` (which may reject or resolve to no token), the adapter
`fetchIssues` call, the per-issue upsert write (which may reject), and the
db-generated id of a freshly inserted issue row. -/
structure SyncEnv where
  logId : String
  now : Nat
  tokenResult : Except String (Option String)
  fetchResult : Option Nat → Except String (List ProviderIssue)
  upsertResult : ProviderIssue → Except String Unit
  newIssueId : ProviderIssue → String

/-- The catch block of `syncRepo`: mark the audit record `failed` with the
exception's message. -/
def markSyncFailed (db : Db) (logId : String) (now : Nat) (msg : String) : Db :=
  { db with syncLog := db.syncLog.map fun row =>
      if row.id == logId then
        { row with status := "failed", error := some msg, completedAt := some now }
      else row }

/-- One iteration of `syncRepo`'s upsert loop: update the existing row keyed
by (repoId, providerIssueId) if present, insert a new row otherwise. -/
def upsertFetchedIssue (env : SyncEnv) (repoId provider : String) (db : Db)
    (issue : ProviderIssue) : Db :=
  let existing := (db.issues.filter fun r =>
    r.repoId == repoId && r.providerIssueId == issue.providerIssueId).head?
  match existing with
  | some r =>
    { db with issues := db.issues.map fun row =>
        if row.id == r.id then
          { row with
            title := issue.title
            body := issue.body
            author := issue.author
            authorAvatar := issue.authorAvatar
            state := issue.state
            labels := issue.labels
            assignees := issue.assignees
            url := issue.url
            updatedAt := issue.updatedAt
            fetchedAt := env.now }
        else row }
  | none =>
    { db with issues := db.issues ++
        [{ id := env.newIssueId issue
           repoId := repoId
           provider := provider
           number := issue.number
           title := issue.title
           body := issue.body
           author := issue.author
           authorAvatar := issue.authorAvatar
           state := issue.state
           labels := issue.labels
           assignees := issue.assignees
           url := issue.url
           providerIssueId := issue.providerIssueId
           createdAt := issue.createdAt
           updatedAt := issue.updatedAt
           fetchedAt := env.now }] }

/-- `syncRepo`'s upsert loop; stops at the first issue whose awaited db write
rejects, returning the partially-updated store and the exception message. -/
def upsertLoop (env : SyncEnv) (repoId provider : String) :
    Db → List ProviderIssue → Db × Option String
  | db, [] => (db, none)
  | db, issue :: rest =>
    match env.upsertResult issue with
    | .error e => (db, some e)
    | .ok _ => upsertLoop env repoId provider (upsertFetchedIssue env repoId provider db issue) rest

/-- The `started` audit record inserted at the beginning of `syncRepo`
(`issuesFetched`, `error`, `startedAt` and `completedAt` carry the schema's
column defaults). -/
def startedLogRow (logId repoId : String) (now : Nat) : SyncLogRow :=
  { id := logId
    repoId := repoId
    status := "started"
    issuesFetched := some 0
    error := none
    startedAt := now
    completedAt := none }

/-- `syncRepo` from the sync engine: look up the repo scoped by user, append
a `started` audit record, then (inside try/catch) resolve a token, fetch
issues since the freshness marker, upsert them, advance `lastSyncedAt` to
now, and complete the audit record; any exception marks the audit record
failed and yields a failure result. -/
def syncRepo (env : SyncEnv) (db : Db) (repoId userId : String) :
    Db × SyncResult × List ExtCall :=
  match (db.repos.filter fun r => r.id == repoId && r.userId == userId).head? with
  | none => (db, ⟨repoId, "failed", 0, some "Repo not found"⟩, [])
  | some repo =>
    let db1 := { db with syncLog := db.syncLog ++ [startedLogRow env.logId repoId env.now] }
    let tokenTrace := [ExtCall.resolveToken userId repo.provider]
    match env.tokenResult with
    | .error e =>
      (markSyncFailed db1 env.logId env.now e, ⟨repoId, "failed", 0, some e⟩, tokenTrace)
    | .ok none =>
      let e := "No " ++ repo.provider ++ " token found"
      (markSyncFailed db1 env.logId env.now e, ⟨repoId, "failed", 0, some e⟩, tokenTrace)
    | .ok (some token) =>
      if knownProvider repo.provider then
        let since := repo.lastSyncedAt
        let fetchTrace := tokenTrace ++ [ExtCall.fetchIssues repo.owner repo.name token since]
        match env.fetchResult since with
        | .error e =>
          (markSyncFailed db1 env.logId env.now e, ⟨repoId, "failed", 0, some e⟩, fetchTrace)
        | .ok fetched =>
          match upsertLoop env repoId repo.provider db1 fetched with
          | (db2, some e) =>
            (markSyncFailed db2 env.logId env.now e, ⟨repoId, "failed", 0, some e⟩, fetchTrace)
          | (db2, none) =>
            let db3 := { db2 with repos := db2.repos.map fun r : Repo =>
              if r.id == repoId then { r with lastSyncedAt := some env.now } else r }
            let db4 := { db3 with syncLog := db3.syncLog.map fun row : SyncLogRow =>
              if row.id == env.logId then
                { row with
                    status := "completed"
                    issuesFetched := some fetched.length
                    completedAt := some env.now }
              else row }
            (db4, ⟨repoId, "completed", fetched.length, none⟩, fetchTrace)
      else
        let e := "Unknown provider: " ++ repo.provider
        (markSyncFailed db1 env.logId env.now e, ⟨repoId, "failed", 0, some e⟩, tokenTrace)

/-- Environment for one `pushBatchChanges` call: the current time and oracles
for the awaited external steps, per provider (token resolution) and per
triage row (the provider `updateIssue` call). -/
structure PushEnv where
  now : Nat
  tokenResult : String → Except String (Option String)
  updateResult : String → Except String Unit

/-- The user's batch-pending triage rows, as selected at the start of
`pushBatchChanges`. -/
def batchRows (db : Db) (userId : String) : List TriageRow :=
  db.triage.filter fun t => t.userId == userId && t.batchPending

/-- Clear a triage row's batch-pending flag and reset its pending payload
(`{ batchPending: false, pendingChanges: {}, updatedAt: new Date() }`). -/
def clearTriageRow (db : Db) (rowId : String) (now : Nat) : Db :=
  { db with triage := db.triage.map fun t =>
      if t.id == rowId then
        { t with batchPending := false, pendingChanges := some {}, updatedAt := now }
      else t }

/-- Mirror successfully pushed label/assignee/state changes into the local
`issue` row, exactly as `pushBatchChanges` does. -/
def applyLocalIssueUpdate (db : Db) (issue : IssueRow) (changes : PendingChanges) : Db :=
  let upd : IssueRow → IssueRow := fun r =>
    let r1 := match changes.labels with
      | some l =>
        { r with labels := l.remove.foldl setDelete (l.add.foldl setAdd (setOfList issue.labels)) }
      | none => r
    let r2 := match changes.assignees with
      | some a =>
        { r1 with
            assignees := a.remove.foldl setDelete (a.add.foldl setAdd (setOfList issue.assignees)) }
      | none => r1
    let r3 := match changes.state with
      | some s => { r2 with state := s }
      | none => r2
    r3
  { db with issues := db.issues.map fun r => if r.id == issue.id then upd r else r }

/-- The body of `pushBatchChanges`'s per-row try/catch: returns the updated
store, whether the row counted as pushed (`true`) or failed (`false`), and
the trace of outward calls made for this row. -/
def pushRow (env : PushEnv) (db : Db) (userId : String) (row : TriageRow) :
    Db × Bool × List ExtCall :=
  let changes := row.pendingChanges.getD {}
  let issueUpdate := payloadToIssueUpdate changes.toPayload
  if issueUpdate.keyCount == 0 then
    (clearTriageRow db row.id env.now, true, [])
  else
    match (db.issues.filter fun i => i.id == row.issueId).head? with
    | none => (db, false, [])
    | some issue =>
      match (db.repos.filter fun r => r.id == issue.repoId).head? with
      | none => (db, false, [])
      | some repo =>
        let tr0 := [ExtCall.resolveToken userId repo.provider]
        match env.tokenResult repo.provider with
        | .error _ => (db, false, tr0)
        | .ok none => (db, false, tr0)
        | .ok (some token) =>
          if knownProvider repo.provider then
            let tr1 := tr0 ++
              [ExtCall.updateIssue repo.owner repo.name issue.number token issueUpdate]
            match env.updateResult row.id with
            | .error _ => (db, false, tr1)
            | .ok _ =>
              let db1 := applyLocalIssueUpdate db issue changes
              let db2 := clearTriageRow db1 row.id env.now
              (db2, true, tr1)
          else (db, false, tr0)

/-- The row loop of `pushBatchChanges`, threading the store and the
pushed/failed counters. -/
def pushLoop (env : PushEnv) (userId : String) :
    Db → Nat → Nat → List ExtCall → List TriageRow → Db × (Nat × Nat) × List ExtCall
  | db, pushed, failed, tr, [] => (db, (pushed, failed), tr)
  | db, pushed, failed, tr, row :: rest =>
    match pushRow env db userId row with
    | (db1, true, tr1) => pushLoop env userId db1 (pushed + 1) failed (tr ++ tr1) rest
    | (db1, false, tr1) => pushLoop env userId db1 pushed (failed + 1) (tr ++ tr1) rest

/-- `pushBatchChanges` from the sync engine: walk every batch-pending triage
row of the user and return the `{pushed, failed}` counts. -/
def pushBatchChanges (env : PushEnv) (db : Db) (userId : String) :
    Db × (Nat × Nat) × List ExtCall :=
  pushLoop env userId db 0 0 [] (batchRows db userId)

/-- The JSON body destructured by the PATCH handler of
`src/app/api/issues/[id]/route.ts`. -/
structure PatchBody where
  priority : Option (Option Int) := none
  snoozedUntil : Option (Option Nat) := none
  dismissed : Option Bool := none
  labels : Option SetOps := none
  assignees : Option SetOps := none
  state : Option IssueState := none
  batch : Option Bool := none
deriving DecidableEq

/-- Environment for one PATCH call: the session's user (none when
unauthenticated), the current time, db-generated ids for inserted triage
rows, and the oracle for the awaited provider `updateIssue` call. -/
structure PatchEnv where
  session : Option String
  now : Nat
  newTriageId : Nat → String
  updateResult : Except String Unit

/-- The HTTP outcome of the PATCH handler: the `{ ok: true }` JSON response,
an error JSON response with a status code, or an exception escaping the
handler. -/
inductive PatchResponse where
  | okTrue
  | jsonError (status : Nat) (message : String)
  | thrown (message : String)
deriving DecidableEq

/-- A freshly inserted `triage_state` row carrying the schema's column
defaults. -/
def newTriageRow (rid issueId userId : String) (now : Nat) : TriageRow :=
  { id := rid
    issueId := issueId
    userId := userId
    priority := none
    snoozedUntil := none
    dismissed := false
    batchPending := false
    pendingChanges := some {}
    updatedAt := now }

/-- The `triageData` update of the PATCH handler: `updatedAt` plus whichever
of priority / snoozedUntil / dismissed the body carries (a `null`
`snoozedUntil` clears the field — `snoozedUntil ? new Date(...) : null`). -/
def applyTriageScalars (body : PatchBody) (now : Nat) (t : TriageRow) : TriageRow :=
  let t1 := { t with updatedAt := now }
  let t2 := match body.priority with
    | some p => { t1 with priority := p }
    | none => t1
  let t3 := match body.snoozedUntil with
    | some s => { t2 with snoozedUntil := s }
    | none => t2
  let t4 := match body.dismissed with
    | some d => { t3 with dismissed := d }
    | none => t3
  t4

/-- The live-path mirror of label/assignee/state changes into the local
`issue` row, computed from the issue row selected at the start of the
handler. -/
def applyLiveIssueUpdate (db : Db) (issue : IssueRow) (body : PatchBody) : Db :=
  let upd : IssueRow → IssueRow := fun r =>
    let r1 := match body.labels with
      | some l =>
        { r with
            labels := (l.remove.getD []).foldl setDelete
              ((l.add.getD []).foldl setAdd (setOfList issue.labels)) }
      | none => r
    let r2 := match body.assignees with
      | some a =>
        { r1 with
            assignees := (a.remove.getD []).foldl setDelete
              ((a.add.getD []).foldl setAdd (setOfList issue.assignees)) }
      | none => r1
    let r3 := match body.state with
      | some s => { r2 with state := s }
      | none => r2
    r3
  { db with issues := db.issues.map fun r => if r.id == issue.id then upd r else r }

/-- The PATCH handler of `src/app/api/issues/[id]/route.ts`: authenticate,
resolve the issue and its user-owned repo, write local triage fields, then
either stage provider fields into the pending-change accumulator (batch
mode) or write them to the provider immediately when a token resolves (live
mode), and answer `{ ok: true }`. -/
def PATCH (env : PatchEnv) (db : Db) (id : String) (body : PatchBody) :
    Db × PatchResponse × List ExtCall :=
  match env.session with
  | none => (db, .jsonError 401 "Unauthorized", [])
  | some userId =>
    match (db.issues.filter fun i => i.id == id).head? with
    | none => (db, .jsonError 404 "Issue not found", [])
    | some issue =>
      match (db.repos.filter fun r => r.id == issue.repoId && r.userId == userId).head? with
      | none => (db, .jsonError 403 "Unauthorized", [])
      | some repo =>
        let isBatchMode := body.batch == some true || repo.syncMode == "batch"
        let triageRow := (db.triage.filter fun t => t.issueId == id && t.userId == userId).head?
        let db1 :=
          if body.priority.isSome || body.snoozedUntil.isSome || body.dismissed.isSome then
            match triageRow with
            | some t0 =>
              { db with triage := db.triage.map fun t : TriageRow =>
                  if t.id == t0.id then applyTriageScalars body env.now t else t }
            | none =>
              { db with triage := db.triage ++
                  [applyTriageScalars body env.now
                    (newTriageRow (env.newTriageId 0) id userId env.now)] }
          else db
        if body.labels.isSome || body.assignees.isSome || body.state.isSome then
          if isBatchMode then
            let currentPending := (triageRow.bind fun t => t.pendingChanges).getD {}
            let merged := mergePendingChanges currentPending
              { labels := body.labels, assignees := body.assignees, state := body.state }
            match triageRow with
            | some t0 =>
              ({ db1 with triage := db1.triage.map fun t : TriageRow =>
                  if t.id == t0.id then
                    { t with
                        batchPending := true
                        pendingChanges := some merged
                        updatedAt := env.now }
                  else t }, .okTrue, [])
            | none =>
              ({ db1 with triage := db1.triage ++
                  [{ newTriageRow (env.newTriageId 1) id userId env.now with
                      batchPending := true, pendingChanges := some merged }] }, .okTrue, [])
          else
            let tr0 := [ExtCall.resolveToken userId repo.provider]
            match getProviderToken db userId repo.provider with
            | none => (db1, .okTrue, tr0)
            | some token =>
              if knownProvider repo.provider then
                let upd : IssueUpdate :=
                  { labels := body.labels, assignees := body.assignees, state := body.state }
                let tr1 := tr0 ++
                  [ExtCall.updateIssue repo.owner repo.name issue.number token upd]
                match env.updateResult with
                | .error e => (db1, .thrown e, tr1)
                | .ok _ => (applyLiveIssueUpdate db1 issue body, .okTrue, tr1)
              else (db1, .thrown ("Unknown provider: " ++ repo.provider), tr0)
        else (db1, .okTrue, [])

/-- A GitHub API response as seen by `ghFetch`: the HTTP status and the two
rate-limit headers; `x-ratelimit-reset` is modelled by its numeric value,
with a missing (or falsy) header as `none`. -/
structure GhResponse where
  status : Nat
  remaining : Option String
  resetAt : Option Int
deriving DecidableEq

/-- Environment for one `ghFetch` call: `Date.now()` and the response of the
i-th underlying `fetch`. -/
structure GhEnv where
  now : Int
  response : Nat → GhResponse

/-- Observable behaviour of one `ghFetch` call: how many `fetch` calls were
made, the sleep durations (ms) between them, and the response returned. -/
structure GhFetchResult where
  fetchCount : Nat
  sleeps : List Int
  response : GhResponse
deriving DecidableEq

/-- `ghFetch` from `src/lib/github/client.ts`: on a 403 whose headers report
zero remaining quota and a reset time, sleep until the reset time plus one
second, capped at 60 seconds, and retry exactly once, returning the retry's
response as-is; every other response is returned immediately. -/
def ghFetch (env : GhEnv) : GhFetchResult :=
  let res := env.response 0
  if res.status == 403 then
    match res.remaining, res.resetAt with
    | some remaining, some resetAt =>
      if remaining == "0" then
        let waitMs := max 0 (resetAt * 1000 - env.now) + 1000
        let cappedWait := min waitMs 60000
        { fetchCount := 2, sleeps := [cappedWait], response := env.response 1 }
      else { fetchCount := 1, sleeps := [], response := res }
    | _, _ => { fetchCount := 1, sleeps := [], response := res }
  else { fetchCount := 1, sleeps := [], response := res }

end SnapTriage

namespace SnapTriage

theorem mem_setAdd {s : List String} {x y : String} :
    y ∈ setAdd s x ↔ y ∈ s ∨ y = x := by
  unfold setAdd
  by_cases h : x ∈ s
  · simp only [if_pos h]
    constructor
    · exact Or.inl
    · rintro (hy | rfl)
      · exact hy
      · exact h
  · simp [if_neg h]

theorem mem_setDelete {s : List String} {x y : String} :
    y ∈ setDelete s x ↔ y ∈ s ∧ y ≠ x := by
  simp [setDelete]

theorem mem_foldl_setAdd (l : List String) (s : List String) (y : String) :
    y ∈ l.foldl setAdd s ↔ y ∈ s ∨ y ∈ l := by
  induction l generalizing s with
  | nil => simp
  | cons a t ih =>
    simp only [List.foldl_cons, ih, mem_setAdd, List.mem_cons]
    tauto

theorem mem_foldl_setDelete (l : List String) (s : List String) (y : String) :
    y ∈ l.foldl setDelete s ↔ y ∈ s ∧ y ∉ l := by
  induction l generalizing s with
  | nil => simp
  | cons a t ih =>
    simp only [List.foldl_cons, ih, mem_setDelete, List.mem_cons]
    tauto

theorem mem_setOfList (l : List String) (y : String) :
    y ∈ setOfList l ↔ y ∈ l := by
  simpa using mem_foldl_setAdd l [] y

theorem mergeSetOps_single_add (prev : PendingSetOps) (l : String) :
    mergeSetOps prev (opSetOps (.addItem l)) =
      ⟨setAdd (setOfList prev.add) l, setDelete (setOfList prev.remove) l⟩ := rfl

theorem mergeSetOps_single_remove (prev : PendingSetOps) (l : String) :
    mergeSetOps prev (opSetOps (.removeItem l)) =
      if l ∈ setOfList prev.add then
        ⟨setDelete (setOfList prev.add) l, setOfList prev.remove⟩
      else
        ⟨setOfList prev.add, setAdd (setOfList prev.remove) l⟩ := by
  by_cases h : l ∈ setOfList prev.add <;>
    simp [mergeSetOps, opSetOps, h]

theorem mergePendingChanges_priority (e : PendingChanges) (i : TriagePayload) :
    (mergePendingChanges e i).priority =
      if i.priority.isSome then i.priority else e.priority := by
  rcases i with ⟨p, sn, d, lb, asg, st⟩
  cases p <;> cases sn <;> cases d <;> cases st <;> cases lb <;> cases asg <;>
    simp [mergePendingChanges]

theorem mergePendingChanges_snoozedUntil (e : PendingChanges) (i : TriagePayload) :
    (mergePendingChanges e i).snoozedUntil =
      if i.snoozedUntil.isSome then i.snoozedUntil else e.snoozedUntil := by
  rcases i with ⟨p, sn, d, lb, asg, st⟩
  cases p <;> cases sn <;> cases d <;> cases st <;> cases lb <;> cases asg <;>
    simp [mergePendingChanges]

theorem mergePendingChanges_dismissed (e : PendingChanges) (i : TriagePayload) :
    (mergePendingChanges e i).dismissed =
      if i.dismissed.isSome then i.dismissed else e.dismissed := by
  rcases i with ⟨p, sn, d, lb, asg, st⟩
  cases p <;> cases sn <;> cases d <;> cases st <;> cases lb <;> cases asg <;>
    simp [mergePendingChanges]

theorem mergePendingChanges_state (e : PendingChanges) (i : TriagePayload) :
    (mergePendingChanges e i).state =
      if i.state.isSome then i.state else e.state := by
  rcases i with ⟨p, sn, d, lb, asg, st⟩
  cases p <;> cases sn <;> cases d <;> cases st <;> cases lb <;> cases asg <;>
    simp [mergePendingChanges]

theorem mergePendingChanges_labels (e : PendingChanges) (i : TriagePayload)
    (inc : SetOps) (h : i.labels = some inc) :
    (mergePendingChanges e i).labels =
      some (mergeSetOps (e.labels.getD ⟨[], []⟩) inc) := by
  rcases i with ⟨p, sn, d, lb, asg, st⟩
  obtain rfl : lb = some inc := h
  cases p <;> cases sn <;> cases d <;> cases st <;> cases asg <;>
    simp [mergePendingChanges]

theorem mergePendingChanges_labels_none (e : PendingChanges) (i : TriagePayload)
    (h : i.labels = none) :
    (mergePendingChanges e i).labels = e.labels := by
  rcases i with ⟨p, sn, d, lb, asg, st⟩
  obtain rfl : lb = none := h
  cases p <;> cases sn <;> cases d <;> cases st <;> cases asg <;>
    simp [mergePendingChanges]

theorem mergePendingChanges_assignees (e : PendingChanges) (i : TriagePayload)
    (inc : SetOps) (h : i.assignees = some inc) :
    (mergePendingChanges e i).assignees =
      some (mergeSetOps (e.assignees.getD ⟨[], []⟩) inc) := by
  rcases i with ⟨p, sn, d, lb, asg, st⟩
  obtain rfl : asg = some inc := h
  cases p <;> cases sn <;> cases d <;> cases st <;> cases lb <;>
    simp [mergePendingChanges]

theorem mergePendingChanges_assignees_none (e : PendingChanges) (i : TriagePayload)
    (h : i.assignees = none) :
    (mergePendingChanges e i).assignees = e.assignees := by
  rcases i with ⟨p, sn, d, lb, asg, st⟩
  obtain rfl : asg = none := h
  cases p <;> cases sn <;> cases d <;> cases st <;> cases lb <;>
    simp [mergePendingChanges]

theorem refStep_disjoint (s : RefPending) (op : ItemOp)
    (h : ∀ x, ¬(x ∈ s.add ∧ x ∈ s.remove)) (x : String) :
    ¬(x ∈ (refStep s op).add ∧ x ∈ (refStep s op).remove) := by
  cases op with
  | addItem l =>
    rintro ⟨hx1, hx2⟩
    simp only [refStep, Finset.mem_insert, Finset.mem_erase] at hx1 hx2
    rcases hx1 with rfl | hx1
    · exact hx2.1 rfl
    · exact h x ⟨hx1, hx2.2⟩
  | removeItem l =>
    by_cases hl : l ∈ s.add
    · rintro ⟨hx1, hx2⟩
      simp only [refStep, if_pos hl, Finset.mem_erase] at hx1 hx2
      exact h x ⟨hx1.2, hx2⟩
    · rintro ⟨hx1, hx2⟩
      simp only [refStep, if_neg hl, Finset.mem_insert] at hx1 hx2
      rcases hx2 with rfl | hx2
      · exact hl hx1
      · exact h x ⟨hx1, hx2⟩

theorem refFoldl_disjoint (ops : List ItemOp) :
    ∀ (s : RefPending), (∀ x, ¬(x ∈ s.add ∧ x ∈ s.remove)) →
    ∀ x, ¬(x ∈ (ops.foldl refStep s).add ∧ x ∈ (ops.foldl refStep s).remove) := by
  induction ops with
  | nil => intro s h; exact h
  | cons op t ih => intro s h; exact ih _ (refStep_disjoint s op h)

theorem foldSetOps_refFold_aux (ops : List ItemOp) :
    ∀ (start : PendingSetOps) (r : RefPending),
    (∀ x, x ∈ start.add ↔ x ∈ r.add) →
    (∀ x, x ∈ start.remove ↔ x ∈ r.remove) →
    (∀ x, x ∈ (foldSetOps ops start).add ↔ x ∈ (ops.foldl refStep r).add) ∧
    (∀ x, x ∈ (foldSetOps ops start).remove ↔ x ∈ (ops.foldl refStep r).remove) := by
  induction ops with
  | nil => intro start r hA hR; exact ⟨hA, hR⟩
  | cons op t ih =>
    intro start r hA hR
    cases op with
    | addItem l =>
      have h1 : ∀ x, x ∈ (mergeSetOps start (opSetOps (.addItem l))).add ↔
          x ∈ (refStep r (.addItem l)).add := by
        intro x
        rw [mergeSetOps_single_add]
        simp only [refStep, Finset.mem_insert, mem_setAdd, mem_setOfList]
        rw [hA x]
        tauto
      have h2 : ∀ x, x ∈ (mergeSetOps start (opSetOps (.addItem l))).remove ↔
          x ∈ (refStep r (.addItem l)).remove := by
        intro x
        rw [mergeSetOps_single_add]
        simp only [refStep, Finset.mem_erase, mem_setDelete, mem_setOfList]
        rw [hR x]
        tauto
      exact ih _ _ h1 h2
    | removeItem l =>
      by_cases hl : l ∈ setOfList start.add
      · have hl' : l ∈ r.add := (hA l).mp ((mem_setOfList _ _).mp hl)
        have h1 : ∀ x, x ∈ (mergeSetOps start (opSetOps (.removeItem l))).add ↔
            x ∈ (refStep r (.removeItem l)).add := by
          intro x
          rw [mergeSetOps_single_remove, if_pos hl]
          simp only [refStep, if_pos hl', Finset.mem_erase, mem_setDelete, mem_setOfList]
          rw [hA x]
          tauto
        have h2 : ∀ x, x ∈ (mergeSetOps start (opSetOps (.removeItem l))).remove ↔
            x ∈ (refStep r (.removeItem l)).remove := by
          intro x
          rw [mergeSetOps_single_remove, if_pos hl]
          simp only [refStep, if_pos hl', mem_setOfList]
          exact hR x
        exact ih _ _ h1 h2
      · have hl' : l ∉ r.add := fun hmem => hl ((mem_setOfList _ _).mpr ((hA l).mpr hmem))
        have h1 : ∀ x, x ∈ (mergeSetOps start (opSetOps (.removeItem l))).add ↔
            x ∈ (refStep r (.removeItem l)).add := by
          intro x
          rw [mergeSetOps_single_remove, if_neg hl]
          simp only [refStep, if_neg hl', mem_setOfList]
          exact hA x
        have h2 : ∀ x, x ∈ (mergeSetOps start (opSetOps (.removeItem l))).remove ↔
            x ∈ (refStep r (.removeItem l)).remove := by
          intro x
          rw [mergeSetOps_single_remove, if_neg hl]
          simp only [refStep, if_neg hl', Finset.mem_insert, mem_setAdd, mem_setOfList]
          rw [hR x]
          tauto
        exact ih _ _ h1 h2

theorem foldl_merge_labels (ops : List ItemOp) :
    ∀ acc : PendingChanges,
      ((ops.foldl (fun a op => mergePendingChanges a (labelOpPayload op)) acc).labels.getD
          ⟨[], []⟩)
        = foldSetOps ops (acc.labels.getD ⟨[], []⟩) := by
  induction ops with
  | nil => intro acc; rfl
  | cons op t ih =>
    intro acc
    have hstep : (mergePendingChanges acc (labelOpPayload op)).labels =
        some (mergeSetOps (acc.labels.getD ⟨[], []⟩) (opSetOps op)) :=
      mergePendingChanges_labels _ _ _ rfl
    rw [List.foldl_cons, ih, hstep]
    rfl

theorem foldl_merge_assignees (ops : List ItemOp) :
    ∀ acc : PendingChanges,
      ((ops.foldl (fun a op => mergePendingChanges a (assigneeOpPayload op)) acc).assignees.getD
          ⟨[], []⟩)
        = foldSetOps ops (acc.assignees.getD ⟨[], []⟩) := by
  induction ops with
  | nil => intro acc; rfl
  | cons op t ih =>
    intro acc
    have hstep : (mergePendingChanges acc (assigneeOpPayload op)).assignees =
        some (mergeSetOps (acc.assignees.getD ⟨[], []⟩) (opSetOps op)) :=
      mergePendingChanges_assignees _ _ _ rfl
    rw [List.foldl_cons, ih, hstep]
    rfl

theorem mem_applyPendingSet (p : PendingSetOps) (base : List String) (x : String) :
    x ∈ applyPendingSet p base ↔ (x ∈ base ∨ x ∈ p.add) ∧ x ∉ p.remove := by
  unfold applyPendingSet
  rw [mem_foldl_setDelete, mem_foldl_setAdd, mem_setOfList]

/-- C1: folding any sequence of single-label (or single-assignee) add/remove
operations one at a time into an empty accumulator via `mergePendingChanges`
never leaves an item in both the add set and the remove set, and the
resulting add/remove sets — and hence the net effect on any base set —
coincide with the reference set-difference model (`refFold`) that applies the
operations in order. -/
theorem pending_fold_disjoint_and_ref_model (ops : List ItemOp) :
    (∀ x, ¬(x ∈ ((foldLabelOps ops).labels.getD ⟨[], []⟩).add ∧
            x ∈ ((foldLabelOps ops).labels.getD ⟨[], []⟩).remove)) ∧
    (∀ x, x ∈ ((foldLabelOps ops).labels.getD ⟨[], []⟩).add ↔ x ∈ (refFold ops).add) ∧
    (∀ x, x ∈ ((foldLabelOps ops).labels.getD ⟨[], []⟩).remove ↔ x ∈ (refFold ops).remove) ∧
    (∀ base x, x ∈ applyPendingSet ((foldLabelOps ops).labels.getD ⟨[], []⟩) base ↔
        x ∈ (refFold ops).applyTo base.toFinset) ∧
    (∀ x, ¬(x ∈ ((foldAssigneeOps ops).assignees.getD ⟨[], []⟩).add ∧
            x ∈ ((foldAssigneeOps ops).assignees.getD ⟨[], []⟩).remove)) ∧
    (∀ x, x ∈ ((foldAssigneeOps ops).assignees.getD ⟨[], []⟩).add ↔ x ∈ (refFold ops).add) ∧
    (∀ x, x ∈ ((foldAssigneeOps ops).assignees.getD ⟨[], []⟩).remove ↔
        x ∈ (refFold ops).remove) := by
  have hcorr := foldSetOps_refFold_aux ops ⟨[], []⟩ ⟨∅, ∅⟩ (by simp) (by simp)
  have hdisj := refFoldl_disjoint ops ⟨∅, ∅⟩ (by simp)
  have hlab : (foldLabelOps ops).labels.getD ⟨[], []⟩ = foldSetOps ops ⟨[], []⟩ :=
    foldl_merge_labels ops {}
  have hasg : (foldAssigneeOps ops).assignees.getD ⟨[], []⟩ = foldSetOps ops ⟨[], []⟩ :=
    foldl_merge_assignees ops {}
  have hadd : ∀ x, x ∈ ((foldLabelOps ops).labels.getD ⟨[], []⟩).add ↔
      x ∈ (refFold ops).add := by
    intro x; rw [hlab]; exact hcorr.1 x
  have hrem : ∀ x, x ∈ ((foldLabelOps ops).labels.getD ⟨[], []⟩).remove ↔
      x ∈ (refFold ops).remove := by
    intro x; rw [hlab]; exact hcorr.2 x
  have hadd2 : ∀ x, x ∈ ((foldAssigneeOps ops).assignees.getD ⟨[], []⟩).add ↔
      x ∈ (refFold ops).add := by
    intro x; rw [hasg]; exact hcorr.1 x
  have hrem2 : ∀ x, x ∈ ((foldAssigneeOps ops).assignees.getD ⟨[], []⟩).remove ↔
      x ∈ (refFold ops).remove := by
    intro x; rw [hasg]; exact hcorr.2 x
  have hdisj' : ∀ x, ¬(x ∈ (refFold ops).add ∧ x ∈ (refFold ops).remove) := hdisj
  refine ⟨?_, hadd, hrem, ?_, ?_, hadd2, hrem2⟩
  · intro x hx
    exact hdisj' x ⟨(hadd x).mp hx.1, (hrem x).mp hx.2⟩
  · intro base x
    rw [mem_applyPendingSet]
    simp only [RefPending.applyTo, Finset.mem_union, Finset.mem_sdiff, List.mem_toFinset]
    have h1 := hadd x
    have h2 := hrem x
    have h3 := hdisj' x
    tauto
  · intro x hx
    exact hdisj' x ⟨(hadd2 x).mp hx.1, (hrem2 x).mp hx.2⟩

theorem upsertFetchedIssue_other_tables (env : SyncEnv) (repoId provider : String)
    (db : Db) (issue : ProviderIssue) :
    (upsertFetchedIssue env repoId provider db issue).repos = db.repos ∧
    (upsertFetchedIssue env repoId provider db issue).syncLog = db.syncLog ∧
    (upsertFetchedIssue env repoId provider db issue).triage = db.triage := by
  cases hx : (db.issues.filter fun r =>
      r.repoId == repoId && r.providerIssueId == issue.providerIssueId).head? <;>
    simp [upsertFetchedIssue, hx]

theorem upsertLoop_other_tables (env : SyncEnv) (repoId provider : String)
    (issues : List ProviderIssue) :
    ∀ db : Db,
      (upsertLoop env repoId provider db issues).1.repos = db.repos ∧
      (upsertLoop env repoId provider db issues).1.syncLog = db.syncLog ∧
      (upsertLoop env repoId provider db issues).1.triage = db.triage := by
  induction issues with
  | nil => intro db; exact ⟨rfl, rfl, rfl⟩
  | cons i rest ih =>
    intro db
    rw [upsertLoop]
    cases env.upsertResult i with
    | error e => exact ⟨rfl, rfl, rfl⟩
    | ok u =>
      have h1 := ih (upsertFetchedIssue env repoId provider db i)
      have h2 := upsertFetchedIssue_other_tables env repoId provider db i
      exact ⟨h1.1.trans h2.1, h1.2.1.trans h2.2.1, h1.2.2.trans h2.2.2⟩

theorem pushLoop_counts (env : PushEnv) (userId : String) (rows : List TriageRow) :
    ∀ (db : Db) (pushed failed : Nat) (tr : List ExtCall),
      (pushLoop env userId db pushed failed tr rows).2.1.1 +
        (pushLoop env userId db pushed failed tr rows).2.1.2 =
      pushed + failed + rows.length := by
  induction rows with
  | nil => intro db pushed failed tr; simp [pushLoop]
  | cons row rest ih =>
    intro db pushed failed tr
    rw [pushLoop]
    rcases hpr : pushRow env db userId row with ⟨db1, ok, tr1⟩
    cases ok
    · have := ih db1 pushed (failed + 1) (tr ++ tr1)
      simp only [this, List.length_cons]
      omega
    · have := ih db1 (pushed + 1) failed (tr ++ tr1)
      simp only [this, List.length_cons]
      omega

/-- Witness for `pending_fold_disjoint_and_ref_model`: toggling the label
`"bug"` on and then off leaves it in neither set, matching the reference
model. -/
theorem pending_fold_disjoint_and_ref_model_witness :
    ¬("bug" ∈ ((foldLabelOps [ItemOp.addItem "bug", ItemOp.removeItem "bug"]).labels.getD
        ⟨[], []⟩).add ∧
      "bug" ∈ ((foldLabelOps [ItemOp.addItem "bug", ItemOp.removeItem "bug"]).labels.getD
        ⟨[], []⟩).remove) :=
  (pending_fold_disjoint_and_ref_model [ItemOp.addItem "bug", ItemOp.removeItem "bug"]).1 "bug"

/-- C2: in `mergePendingChanges`, merging a removal of an item that is in the
pending-add set deletes it from the add set and leaves the remove set
untouched (so `merge({labels:{add:["bug"],remove:[]}},
{labels:{remove:["bug"]}})` yields empty add and remove sets), and merging an
addition of an item that is in the pending-remove set deletes it from the
remove set and puts it in the add set. -/
theorem merge_cancel_semantics :
    (mergePendingChanges { labels := some ⟨["bug"], []⟩ }
        { labels := some { remove := some ["bug"] } } =
      { labels := some ⟨[], []⟩ }) ∧
    (∀ (e : PendingChanges) (po : PendingSetOps) (x : String),
      e.labels = some po → x ∈ po.add →
      ∃ res : PendingSetOps,
        (mergePendingChanges e (labelOpPayload (.removeItem x))).labels = some res ∧
        x ∉ res.add ∧ (∀ y, y ∈ res.remove ↔ y ∈ po.remove)) ∧
    (∀ (e : PendingChanges) (po : PendingSetOps) (x : String),
      e.labels = some po → x ∈ po.remove →
      ∃ res : PendingSetOps,
        (mergePendingChanges e (labelOpPayload (.addItem x))).labels = some res ∧
        x ∈ res.add ∧ x ∉ res.remove) := by
  refine ⟨by decide, ?_, ?_⟩
  · intro e po x he hx
    have hlab := mergePendingChanges_labels e (labelOpPayload (.removeItem x))
      (opSetOps (.removeItem x)) rfl
    rw [he] at hlab
    have hmem : x ∈ setOfList po.add := (mem_setOfList _ _).mpr hx
    rw [Option.getD_some, mergeSetOps_single_remove, if_pos hmem] at hlab
    refine ⟨_, hlab, ?_, ?_⟩
    · intro hx2
      exact (mem_setDelete.mp hx2).2 rfl
    · intro y
      exact mem_setOfList _ _
  · intro e po x he hx
    have hlab := mergePendingChanges_labels e (labelOpPayload (.addItem x))
      (opSetOps (.addItem x)) rfl
    rw [he] at hlab
    rw [Option.getD_some, mergeSetOps_single_add] at hlab
    refine ⟨_, hlab, ?_, ?_⟩
    · exact mem_setAdd.mpr (Or.inr rfl)
    · intro hx2
      exact (mem_setDelete.mp hx2).2 rfl

/-- Witness for `merge_cancel_semantics`: both general cancellation
directions instantiated on the label `"bug"`. -/
theorem merge_cancel_semantics_witness :
    (∃ res : PendingSetOps,
      (mergePendingChanges { labels := some ⟨["bug"], []⟩ }
          (labelOpPayload (.removeItem "bug"))).labels = some res ∧
      "bug" ∉ res.add ∧ (∀ y, y ∈ res.remove ↔ y ∈ ([] : List String))) ∧
    (∃ res : PendingSetOps,
      (mergePendingChanges { labels := some ⟨[], ["bug"]⟩ }
          (labelOpPayload (.addItem "bug"))).labels = some res ∧
      "bug" ∈ res.add ∧ "bug" ∉ res.remove) :=
  ⟨merge_cancel_semantics.2.1 { labels := some ⟨["bug"], []⟩ } ⟨["bug"], []⟩ "bug" rfl
      (by decide),
   merge_cancel_semantics.2.2 { labels := some ⟨[], ["bug"]⟩ } ⟨[], ["bug"]⟩ "bug" rfl
      (by decide)⟩

/-- C8: `mergePendingChanges` applies last-write-wins to the scalar fields
priority, snoozedUntil, dismissed and state — a field present in the incoming
payload (including an explicit null) replaces the existing value, and an
absent field leaves the existing value unchanged; in particular
`merge({}, {priority: 1}).priority = 1` and
`merge({priority: 1}, {priority: null}).priority = null`. -/
theorem merge_scalar_last_write_wins :
    (∀ e i p, i.priority = some p → (mergePendingChanges e i).priority = some p) ∧
    (∀ e i, i.priority = none → (mergePendingChanges e i).priority = e.priority) ∧
    (∀ e i s, i.snoozedUntil = some s → (mergePendingChanges e i).snoozedUntil = some s) ∧
    (∀ e i, i.snoozedUntil = none →
      (mergePendingChanges e i).snoozedUntil = e.snoozedUntil) ∧
    (∀ e i d, i.dismissed = some d → (mergePendingChanges e i).dismissed = some d) ∧
    (∀ e i, i.dismissed = none → (mergePendingChanges e i).dismissed = e.dismissed) ∧
    (∀ e i s, i.state = some s → (mergePendingChanges e i).state = some s) ∧
    (∀ e i, i.state = none → (mergePendingChanges e i).state = e.state) ∧
    ((mergePendingChanges {} { priority := some (some 1) }).priority = some (some 1)) ∧
    ((mergePendingChanges { priority := some (some 1) } { priority := some none }).priority
      = some none) := by
  refine ⟨?_, ?_, ?_, ?_, ?_, ?_, ?_, ?_, by decide, by decide⟩
  · intro e i p h; rw [mergePendingChanges_priority, h]; rfl
  · intro e i h; rw [mergePendingChanges_priority, h]; rfl
  · intro e i s h; rw [mergePendingChanges_snoozedUntil, h]; rfl
  · intro e i h; rw [mergePendingChanges_snoozedUntil, h]; rfl
  · intro e i d h; rw [mergePendingChanges_dismissed, h]; rfl
  · intro e i h; rw [mergePendingChanges_dismissed, h]; rfl
  · intro e i s h; rw [mergePendingChanges_state, h]; rfl
  · intro e i h; rw [mergePendingChanges_state, h]; rfl

/-- Witness for `merge_scalar_last_write_wins`: the present-field and
absent-field cases instantiated on concrete payloads. -/
theorem merge_scalar_last_write_wins_witness :
    (mergePendingChanges {} { priority := some (some 1) }).priority = some (some 1) ∧
    (mergePendingChanges { priority := some (some 7) } {}).priority =
      ({ priority := some (some 7) } : PendingChanges).priority :=
  ⟨merge_scalar_last_write_wins.1 {} { priority := some (some 1) } (some 1) rfl,
   merge_scalar_last_write_wins.2.1 { priority := some (some 7) } {} rfl⟩

/-- C6: every `pushBatchChanges` call returns pushed/failed counters that sum
to the number of batch-pending rows it found, so each row contributes to
exactly one of the two counters; the loop settles each row's outcome locally
— a failed row increments `failed` and the loop continues with the remaining
rows — and the call always returns counts rather than raising a per-row
error. -/
theorem pushBatchChanges_partial_failure_accounting (env : PushEnv) (db : Db)
    (userId : String) :
    ((pushBatchChanges env db userId).2.1.1 + (pushBatchChanges env db userId).2.1.2 =
      (batchRows db userId).length) ∧
    (∀ (db' : Db) (pushed failed : Nat) (tr : List ExtCall) (row : TriageRow)
        (rest : List TriageRow),
      pushLoop env userId db' pushed failed tr (row :: rest) =
        (if (pushRow env db' userId row).2.1 then
          pushLoop env userId (pushRow env db' userId row).1 (pushed + 1) failed
            (tr ++ (pushRow env db' userId row).2.2) rest
        else
          pushLoop env userId (pushRow env db' userId row).1 pushed (failed + 1)
            (tr ++ (pushRow env db' userId row).2.2) rest)) := by
  constructor
  · have h := pushLoop_counts env userId (batchRows db userId) db 0 0 []
    simpa [pushBatchChanges] using h
  · intro db' pushed failed tr row rest
    rw [pushLoop]
    rcases hpr : pushRow env db' userId row with ⟨db1, ok, tr1⟩
    cases ok <;> simp

/-- C4: in `pushBatchChanges`, a batch-pending triage row whose derived
provider-facing change is empty — for example when only the local-only
fields priority, snoozedUntil or dismissed were staged — has its
batch-pending flag cleared and its pending payload reset, counts as pushed,
and causes no token resolution and no `updateIssue` call (its outward-call
trace is empty); a batch consisting of exactly one such row reports one
pushed, zero failed, with no outward call at all. -/
theorem pushBatch_empty_change_counts_as_pushed (env : PushEnv) (db : Db)
    (userId : String) (row : TriageRow) :
    (∀ pr sn d, (payloadToIssueUpdate
        (PendingChanges.toPayload ⟨pr, sn, d, none, none, none⟩)).keyCount = 0) ∧
    ((payloadToIssueUpdate (row.pendingChanges.getD {}).toPayload).keyCount = 0 →
      pushRow env db userId row = (clearTriageRow db row.id env.now, true, []) ∧
      (∀ t ∈ (clearTriageRow db row.id env.now).triage, t.id = row.id →
        t.batchPending = false ∧ t.pendingChanges = some ({} : PendingChanges)) ∧
      (db.triage = [row] → row.userId = userId → row.batchPending = true →
        pushBatchChanges env db userId =
          (clearTriageRow db row.id env.now, (1, 0), []))) := by
  constructor
  · intro pr sn d
    rfl
  · intro h
    have ha : pushRow env db userId row = (clearTriageRow db row.id env.now, true, []) := by
      simp [pushRow, h]
    refine ⟨ha, ?_, ?_⟩
    · intro t ht hid
      simp only [clearTriageRow, List.mem_map] at ht
      obtain ⟨t0, ht0, rfl⟩ := ht
      by_cases h0 : (t0.id == row.id) = true
      · rw [if_pos h0]
        exact ⟨rfl, rfl⟩
      · rw [if_neg h0] at hid ⊢
        exact absurd (beq_iff_eq.mpr hid) h0
    · intro hdb huser hbatch
      have hbr : batchRows db userId = [row] := by
        simp [batchRows, hdb, huser, hbatch]
      show pushLoop env userId db 0 0 [] (batchRows db userId) = _
      rw [hbr, pushLoop, ha]
      simp [pushLoop]

/-- Witness for `pushBatch_empty_change_counts_as_pushed`: a single
batch-pending row staging only a priority is cleared and counted as pushed
with an empty trace. -/
theorem pushBatch_empty_change_witness :
    pushBatchChanges
        { now := 5, tokenResult := fun _ => Except.ok none,
          updateResult := fun _ => Except.ok () }
        { repos := [], issues := [], syncLog := [],
          triage := [⟨"t1", "i1", "u1", none, none, false, true,
            some { priority := some (some 2) }, 0⟩],
          accounts := [], accessTokens := [] } "u1" =
      (clearTriageRow
        { repos := [], issues := [], syncLog := [],
          triage := [⟨"t1", "i1", "u1", none, none, false, true,
            some { priority := some (some 2) }, 0⟩],
          accounts := [], accessTokens := [] } "t1" 5, (1, 0), []) :=
  ((pushBatch_empty_change_counts_as_pushed
      { now := 5, tokenResult := fun _ => Except.ok none,
        updateResult := fun _ => Except.ok () }
      { repos := [], issues := [], syncLog := [],
        triage := [⟨"t1", "i1", "u1", none, none, false, true,
          some { priority := some (some 2) }, 0⟩],
        accounts := [], accessTokens := [] } "u1"
      ⟨"t1", "i1", "u1", none, none, false, true,
        some { priority := some (some 2) }, 0⟩).2 (by decide)).2.2 rfl rfl rfl

/-- C7: a successful `syncRepo` sets the repository's freshness marker to
the time of the attempt (`env.now`), independent of every fetched issue's
updated-time; the single `fetchIssues` call is bounded by the repository's
prior marker, so a repository with no prior marker is fetched with no
`since` bound. -/
theorem syncRepo_freshness_marker (env : SyncEnv) (db : Db) (repoId userId : String)
    (repo : Repo)
    (hrepo : (db.repos.filter fun r => r.id == repoId && r.userId == userId).head?
      = some repo) :
    ((syncRepo env db repoId userId).2.1.status = "completed" →
      ∀ r ∈ (syncRepo env db repoId userId).1.repos, r.id = repoId →
        r.lastSyncedAt = some env.now) ∧
    (∀ token, env.tokenResult = .ok (some token) → knownProvider repo.provider = true →
      (syncRepo env db repoId userId).2.2 =
        [ExtCall.resolveToken userId repo.provider,
         ExtCall.fetchIssues repo.owner repo.name token repo.lastSyncedAt]) ∧
    (∀ token, env.tokenResult = .ok (some token) → knownProvider repo.provider = true →
      repo.lastSyncedAt = none →
      ExtCall.fetchIssues repo.owner repo.name token none ∈
        (syncRepo env db repoId userId).2.2) := by
  simp only [syncRepo, hrepo]
  cases htok : env.tokenResult with
  | error e =>
    refine ⟨?_, ?_, ?_⟩
    · intro hst
      simp at hst
    · intro token htk
      simp at htk
    · intro token htk
      simp at htk
  | ok tok =>
    cases tok with
    | none =>
      refine ⟨?_, ?_, ?_⟩
      · intro hst
        simp at hst
      · intro token htk
        simp at htk
      · intro token htk
        simp at htk
    | some token =>
      dsimp only
      by_cases hkp : knownProvider repo.provider = true
      · rw [if_pos hkp]
        cases hft : env.fetchResult repo.lastSyncedAt with
        | error e =>
          refine ⟨?_, ?_, ?_⟩
          · intro hst
            simp at hst
          · intro token' htk _
            have ht : token = token' := by simpa using htk
            subst ht
            rfl
          · intro token' htk _ hsince
            have ht : token = token' := by simpa using htk
            subst ht
            rw [hsince]
            simp
        | ok fetched =>
          dsimp only
          cases hup : upsertLoop env repoId repo.provider
              { db with syncLog := db.syncLog ++ [startedLogRow env.logId repoId env.now] }
              fetched with
          | mk db2 o =>
            cases o with
            | some e =>
              refine ⟨?_, ?_, ?_⟩
              · intro hst
                simp at hst
              · intro token' htk _
                have ht : token = token' := by simpa using htk
                subst ht
                rfl
              · intro token' htk _ hsince
                have ht : token = token' := by simpa using htk
                subst ht
                rw [hsince]
                simp
            | none =>
              refine ⟨?_, ?_, ?_⟩
              · intro _ r hr hid
                dsimp only at hr
                rw [List.mem_map] at hr
                obtain ⟨r0, hr0, rfl⟩ := hr
                by_cases h0 : (r0.id == repoId) = true
                · rw [if_pos h0]
                · rw [if_neg h0] at hid ⊢
                  exact absurd (beq_iff_eq.mpr hid) h0
              · intro token' htk _
                have ht : token = token' := by simpa using htk
                subst ht
                rfl
              · intro token' htk _ hsince
                have ht : token = token' := by simpa using htk
                subst ht
                rw [hsince]
                simp
      · rw [if_neg hkp]
        refine ⟨?_, ?_, ?_⟩
        · intro hst
          simp at hst
        · intro token' htk hkp2
          exact absurd hkp2 hkp
        · intro token' htk hkp2
          exact absurd hkp2 hkp

/-- Witness for `syncRepo_freshness_marker`: a repository with no prior
marker is fetched with `since = none`. -/
theorem syncRepo_freshness_marker_witness :
    ExtCall.fetchIssues "o" "n" "tok" none ∈
      (syncRepo ⟨"log1", 10, .ok (some "tok"), fun _ => .ok [], fun _ => .ok (), fun _ => "i1"⟩
        ⟨[⟨"r1", "u1", "github", "o", "n", "live", true, none⟩], [], [], [], [], []⟩
        "r1" "u1").2.2 :=
  (syncRepo_freshness_marker
    ⟨"log1", 10, .ok (some "tok"), fun _ => .ok [], fun _ => .ok (), fun _ => "i1"⟩
    ⟨[⟨"r1", "u1", "github", "o", "n", "live", true, none⟩], [], [], [], [], []⟩
    "r1" "u1" ⟨"r1", "u1", "github", "o", "n", "live", true, none⟩
    (by decide)).2.2 "tok" rfl (by decide) rfl

theorem markSyncFailed_repos (db : Db) (logId : String) (now : Nat) (msg : String) :
    (markSyncFailed db logId now msg).repos = db.repos := rfl

theorem markSyncFailed_log_mem (db : Db) (logId : String) (now : Nat) (msg : String)
    (row : SyncLogRow) (hrow : row ∈ db.syncLog) (hid : row.id = logId) :
    ∃ r ∈ (markSyncFailed db logId now msg).syncLog,
      r.id = logId ∧ r.status = "failed" ∧ r.error = some msg := by
  refine ⟨{ row with status := "failed", error := some msg, completedAt := some now },
    ?_, hid, rfl, rfl⟩
  show _ ∈ db.syncLog.map _
  rw [List.mem_map]
  exact ⟨row, hrow, by rw [if_pos (beq_iff_eq.mpr hid)]⟩

theorem syncRepo_failed_struct (env : SyncEnv) (db : Db) (repoId userId : String)
    (repo : Repo)
    (hrepo : (db.repos.filter fun r => r.id == repoId && r.userId == userId).head?
      = some repo)
    (h : (syncRepo env db repoId userId).2.1.status = "failed") :
    ∃ msg db2,
      (syncRepo env db repoId userId).2.1 = ⟨repoId, "failed", 0, some msg⟩ ∧
      (syncRepo env db repoId userId).1 = markSyncFailed db2 env.logId env.now msg ∧
      db2.repos = db.repos ∧
      db2.syncLog = db.syncLog ++ [startedLogRow env.logId repoId env.now] := by
  simp only [syncRepo, hrepo] at h ⊢
  cases htok : env.tokenResult with
  | error e =>
    exact ⟨e, { db with syncLog := db.syncLog ++ [startedLogRow env.logId repoId env.now] },
      rfl, rfl, rfl, rfl⟩
  | ok tok =>
    cases tok with
    | none =>
      exact ⟨"No " ++ repo.provider ++ " token found",
        { db with syncLog := db.syncLog ++ [startedLogRow env.logId repoId env.now] },
        rfl, rfl, rfl, rfl⟩
    | some token =>
      dsimp only
      by_cases hkp : knownProvider repo.provider = true
      · rw [if_pos hkp]
        cases hft : env.fetchResult repo.lastSyncedAt with
        | error e =>
          exact ⟨e, { db with syncLog := db.syncLog ++ [startedLogRow env.logId repoId env.now] },
            rfl, rfl, rfl, rfl⟩
        | ok fetched =>
          dsimp only
          cases hup : upsertLoop env repoId repo.provider
              { db with syncLog := db.syncLog ++ [startedLogRow env.logId repoId env.now] }
              fetched with
          | mk db2 o =>
            cases o with
            | some e =>
              have hoth := upsertLoop_other_tables env repoId repo.provider fetched
                { db with syncLog := db.syncLog ++ [startedLogRow env.logId repoId env.now] }
              rw [hup] at hoth
              exact ⟨e, db2, rfl, rfl, hoth.1, hoth.2.1⟩
            | none =>
              exfalso
              rw [htok] at h
              dsimp only at h
              rw [if_pos hkp, hft] at h
              dsimp only at h
              rw [hup] at h
              simp at h
      · rw [if_neg hkp]
        exact ⟨"Unknown provider: " ++ repo.provider,
          { db with syncLog := db.syncLog ++ [startedLogRow env.logId repoId env.now] },
          rfl, rfl, rfl, rfl⟩

/-- C3 (amended): any exception during `syncRepo`'s pull — token resolution
rejecting, the token resolving to none, or the adapter fetch or an issue
upsert rejecting — is caught rather than escaping: `syncRepo` returns a
structured `{status := "failed", issuesFetched := 0, error := some msg}`
result, the audit record for the attempt is set to status `"failed"` with
its error field populated with the exception's message (so the field is
non-empty whenever the message is, and the engine's own no-token message is
always non-empty), and the repository rows — hence the freshness marker —
are left exactly as they were. -/
theorem syncRepo_failure_contract (env : SyncEnv) (db : Db) (repoId userId : String)
    (repo : Repo)
    (hrepo : (db.repos.filter fun r => r.id == repoId && r.userId == userId).head?
      = some repo) :
    ((syncRepo env db repoId userId).2.1.status = "failed" →
      (syncRepo env db repoId userId).2.1.issuesFetched = 0 ∧
      (∃ msg, (syncRepo env db repoId userId).2.1.error = some msg ∧
        ∃ r ∈ (syncRepo env db repoId userId).1.syncLog,
          r.id = env.logId ∧ r.status = "failed" ∧ r.error = some msg) ∧
      (syncRepo env db repoId userId).1.repos = db.repos) ∧
    (∀ e, env.tokenResult = .error e →
      (syncRepo env db repoId userId).2.1 = ⟨repoId, "failed", 0, some e⟩) ∧
    (env.tokenResult = .ok none →
      (syncRepo env db repoId userId).2.1 =
        ⟨repoId, "failed", 0, some ("No " ++ repo.provider ++ " token found")⟩ ∧
      ("No " ++ repo.provider ++ " token found") ≠ "") ∧
    (∀ token e, env.tokenResult = .ok (some token) → knownProvider repo.provider = true →
      env.fetchResult repo.lastSyncedAt = .error e →
      (syncRepo env db repoId userId).2.1 = ⟨repoId, "failed", 0, some e⟩) := by
  refine ⟨?_, ?_, ?_, ?_⟩
  · intro hfail
    obtain ⟨msg, db2, hres, hdb, hrepos, hlog⟩ :=
      syncRepo_failed_struct env db repoId userId repo hrepo hfail
    refine ⟨by rw [hres], ⟨msg, by rw [hres], ?_⟩, ?_⟩
    · rw [hdb]
      exact markSyncFailed_log_mem db2 env.logId env.now msg
        (startedLogRow env.logId repoId env.now) (by rw [hlog]; simp) rfl
    · rw [hdb, markSyncFailed_repos, hrepos]
  · intro e htok
    simp only [syncRepo, hrepo, htok]
  · intro htok
    refine ⟨?_, ?_⟩
    · simp only [syncRepo, hrepo, htok]
    · intro hcon
      rw [String.congr_append, String.congr_append] at hcon
      have hdata := congrArg String.data hcon
      simp at hdata
  · intro token e htok hkp hft
    simp only [syncRepo, hrepo, htok]
    rw [if_pos hkp, hft]

/-- Counterexample to C3 as stated: an adapter fetch that rejects with an
Error carrying an empty message leaves the audit record in `failed` status
with `error = some ""` — the error field is set to the empty string, so the
audit record does not end up with a non-empty error field. -/
theorem syncRepo_empty_error_message :
    ((syncRepo ⟨"log1", 10, .ok (some "tok"), fun _ => .error "", fun _ => .ok (),
        fun _ => "i"⟩
      ⟨[⟨"r1", "u1", "github", "o", "n", "live", true, some 5⟩], [], [], [], [], []⟩
      "r1" "u1").2.1.status = "failed") ∧
    (∀ r ∈ (syncRepo ⟨"log1", 10, .ok (some "tok"), fun _ => .error "", fun _ => .ok (),
        fun _ => "i"⟩
      ⟨[⟨"r1", "u1", "github", "o", "n", "live", true, some 5⟩], [], [], [], [], []⟩
      "r1" "u1").1.syncLog,
      r.status = "failed" ∧ r.error = some "" ∧ ("" : String).length = 0) := by
  decide

/-- Witness for `syncRepo_failure_contract`: a rejecting token resolution
yields the structured failure result. -/
theorem syncRepo_failure_contract_witness :
    (syncRepo ⟨"log1", 10, .error "boom", fun _ => .ok [], fun _ => .ok (), fun _ => "i"⟩
      ⟨[⟨"r1", "u1", "github", "o", "n", "live", true, some 5⟩], [], [], [], [], []⟩
      "r1" "u1").2.1 = ⟨"r1", "failed", 0, some "boom"⟩ :=
  (syncRepo_failure_contract
    ⟨"log1", 10, .error "boom", fun _ => .ok [], fun _ => .ok (), fun _ => "i"⟩
    ⟨[⟨"r1", "u1", "github", "o", "n", "live", true, some 5⟩], [], [], [], [], []⟩
    "r1" "u1" ⟨"r1", "u1", "github", "o", "n", "live", true, some 5⟩
    (by decide)).2.1 "boom" rfl

theorem getProviderToken_none (db : Db) (userId provider : String)
    (ha : db.accounts.filter (fun a => a.userId == userId && a.provider == provider) = [])
    (hp : db.accessTokens.filter
      (fun t => t.userId == userId && t.provider == provider) = []) :
    getProviderToken db userId provider = none := by
  simp [getProviderToken, ha, hp]

/-- C10: in the live-mode branch of the PATCH handler, when the payload
carries provider-facing fields but no token resolves for the repository's
provider (no matching OAuth account row and no personal access token row),
the handler performs no `updateIssue` call and leaves the issues table
untouched, yet still responds `{ ok: true }` — the missing token is silently
swallowed rather than reported as an error. -/
theorem patch_live_missing_token (env : PatchEnv) (db : Db) (id : String)
    (body : PatchBody) (userId : String) (issue : IssueRow) (repo : Repo)
    (hs : env.session = some userId)
    (hi : (db.issues.filter fun i => i.id == id).head? = some issue)
    (hr : (db.repos.filter
      fun r => r.id == issue.repoId && r.userId == userId).head? = some repo)
    (hprov : (body.labels.isSome || body.assignees.isSome || body.state.isSome) = true)
    (hbatch : (body.batch == some true || repo.syncMode == "batch") = false)
    (hacct : db.accounts.filter
      (fun a => a.userId == userId && a.provider == repo.provider) = [])
    (hpat : db.accessTokens.filter
      (fun t => t.userId == userId && t.provider == repo.provider) = []) :
    (PATCH env db id body).2.1 = .okTrue ∧
    (PATCH env db id body).2.2 = [ExtCall.resolveToken userId repo.provider] ∧
    (PATCH env db id body).1.issues = db.issues := by
  have htok : getProviderToken db userId repo.provider = none :=
    getProviderToken_none db userId repo.provider hacct hpat
  simp only [PATCH, hs, hi, hr, hprov, hbatch, htok, if_true, if_false,
    Bool.false_eq_true, eq_self_iff_true]
  refine ⟨?_, ?_, ?_⟩ <;>
    first
      | trivial
      | (split <;> first | rfl | (split <;> rfl))

/-- Witness for `patch_live_missing_token`: a live-mode label change on a
store with no OAuth account and no PAT answers ok with no provider call. -/
theorem patch_live_missing_token_witness :
    (PATCH ⟨some "u1", 3, fun _ => "tid", .ok ()⟩
      ⟨[⟨"r1", "u1", "github", "o", "n", "live", true, none⟩],
       [⟨"i1", "r1", "github", 7, "t", none, none, none, .isOpen, [], [], "u", "pid", 1, 2, 0⟩],
       [], [], [], []⟩
      "i1" { labels := some ⟨some ["bug"], none⟩ }).2.1 = .okTrue ∧
    (PATCH ⟨some "u1", 3, fun _ => "tid", .ok ()⟩
      ⟨[⟨"r1", "u1", "github", "o", "n", "live", true, none⟩],
       [⟨"i1", "r1", "github", 7, "t", none, none, none, .isOpen, [], [], "u", "pid", 1, 2, 0⟩],
       [], [], [], []⟩
      "i1" { labels := some ⟨some ["bug"], none⟩ }).2.2 =
        [ExtCall.resolveToken "u1" "github"] ∧
    (PATCH ⟨some "u1", 3, fun _ => "tid", .ok ()⟩
      ⟨[⟨"r1", "u1", "github", "o", "n", "live", true, none⟩],
       [⟨"i1", "r1", "github", 7, "t", none, none, none, .isOpen, [], [], "u", "pid", 1, 2, 0⟩],
       [], [], [], []⟩
      "i1" { labels := some ⟨some ["bug"], none⟩ }).1.issues =
      [⟨"i1", "r1", "github", 7, "t", none, none, none, .isOpen, [], [], "u", "pid", 1, 2, 0⟩] :=
  patch_live_missing_token ⟨some "u1", 3, fun _ => "tid", .ok ()⟩
    ⟨[⟨"r1", "u1", "github", "o", "n", "live", true, none⟩],
     [⟨"i1", "r1", "github", 7, "t", none, none, none, .isOpen, [], [], "u", "pid", 1, 2, 0⟩],
     [], [], [], []⟩
    "i1" { labels := some ⟨some ["bug"], none⟩ } "u1"
    ⟨"i1", "r1", "github", 7, "t", none, none, none, .isOpen, [], [], "u", "pid", 1, 2, 0⟩
    ⟨"r1", "u1", "github", "o", "n", "live", true, none⟩
    rfl (by decide) (by decide) (by decide) (by decide) rfl rfl

theorem pushRow_trace (env : PushEnv) (db : Db) (userId : String) (row : TriageRow) :
    ∀ c ∈ (pushRow env db userId row).2.2,
      (∃ u p, c = ExtCall.resolveToken u p) ∨
      (∃ o n num tok, c = ExtCall.updateIssue o n num tok
        (payloadToIssueUpdate (row.pendingChanges.getD {}).toPayload)) := by
  intro c hc
  simp only [pushRow] at hc
  repeat' split at hc
  all_goals simp at hc
  all_goals try (rcases hc with hc | hc)
  all_goals try subst hc
  all_goals
    first
      | exact Or.inl ⟨_, _, rfl⟩
      | exact Or.inr ⟨_, _, _, _, rfl⟩

theorem pushLoop_trace (env : PushEnv) (userId : String) (rows : List TriageRow) :
    ∀ (db : Db) (pushed failed : Nat) (tr : List ExtCall) (c : ExtCall),
      c ∈ (pushLoop env userId db pushed failed tr rows).2.2 →
      c ∈ tr ∨ ∃ row ∈ rows,
        (∃ u p, c = ExtCall.resolveToken u p) ∨
        (∃ o n num tok, c = ExtCall.updateIssue o n num tok
          (payloadToIssueUpdate (row.pendingChanges.getD {}).toPayload)) := by
  induction rows with
  | nil =>
    intro db pushed failed tr c hc
    exact Or.inl hc
  | cons row rest ih =>
    intro db pushed failed tr c hc
    rw [pushLoop] at hc
    rcases hpr : pushRow env db userId row with ⟨db1, ok, tr1⟩
    rw [hpr] at hc
    have hstep : ∀ c ∈ tr1,
        (∃ u p, c = ExtCall.resolveToken u p) ∨
        (∃ o n num tok, c = ExtCall.updateIssue o n num tok
          (payloadToIssueUpdate (row.pendingChanges.getD {}).toPayload)) := by
      intro c hc1
      exact pushRow_trace env db userId row c (by rw [hpr]; exact hc1)
    cases ok
    · dsimp only at hc
      rcases ih db1 pushed (failed + 1) (tr ++ tr1) c hc with hmem | ⟨row', hrow', hdisj⟩
      · rcases List.mem_append.mp hmem with h | h
        · exact Or.inl h
        · exact Or.inr ⟨row, List.mem_cons_self _ _, hstep c h⟩
      · exact Or.inr ⟨row', List.mem_cons_of_mem _ hrow', hdisj⟩
    · dsimp only at hc
      rcases ih db1 (pushed + 1) failed (tr ++ tr1) c hc with hmem | ⟨row', hrow', hdisj⟩
      · rcases List.mem_append.mp hmem with h | h
        · exact Or.inl h
        · exact Or.inr ⟨row, List.mem_cons_self _ _, hstep c h⟩
      · exact Or.inr ⟨row', List.mem_cons_of_mem _ hrow', hdisj⟩

/-- C5: the provider-facing change derived by `payloadToIssueUpdate`
consists exactly of the labels, assignees and state facets and is
independent of the local-only fields priority, snoozedUntil and dismissed;
every `updateIssue` call recorded by the batch push path carries the derived
change of one batch-pending row, and every `updateIssue` call recorded by
the live PATCH path carries exactly the request's labels/assignees/state —
so local-only fields never cross the trust boundary to an adapter. -/
theorem provider_change_drops_local_fields :
    (∀ p : TriagePayload, payloadToIssueUpdate p =
      { labels := p.labels, assignees := p.assignees, state := p.state }) ∧
    (∀ (p : TriagePayload) pr sn d,
      payloadToIssueUpdate { p with priority := pr, snoozedUntil := sn, dismissed := d } =
        payloadToIssueUpdate p) ∧
    (∀ (env : PushEnv) (db : Db) (userId : String) (c : ExtCall),
      c ∈ (pushBatchChanges env db userId).2.2 →
      (∃ u p, c = ExtCall.resolveToken u p) ∨
      ∃ row ∈ batchRows db userId, ∃ o n num tok,
        c = ExtCall.updateIssue o n num tok
          (payloadToIssueUpdate (row.pendingChanges.getD {}).toPayload)) ∧
    (∀ (env : PatchEnv) (db : Db) (id : String) (body : PatchBody) (c : ExtCall),
      c ∈ (PATCH env db id body).2.2 →
      (∃ u p, c = ExtCall.resolveToken u p) ∨
      ∃ o n num tok, c = ExtCall.updateIssue o n num tok
        { labels := body.labels, assignees := body.assignees, state := body.state }) := by
  refine ⟨?_, ?_, ?_, ?_⟩
  · intro p
    rcases p with ⟨pr, sn, d, lb, asg, st⟩
    cases lb <;> cases asg <;> cases st <;> rfl
  · intro p pr sn d
    rcases p with ⟨pr0, sn0, d0, lb, asg, st⟩
    cases lb <;> cases asg <;> cases st <;> rfl
  · intro env db userId c hc
    rcases pushLoop_trace env userId (batchRows db userId) db 0 0 [] c hc with hmem | h
    · simp at hmem
    · obtain ⟨row, hrow, hdisj⟩ := h
      rcases hdisj with h1 | ⟨o, n, num, tok, h2⟩
      · exact Or.inl h1
      · exact Or.inr ⟨row, hrow, o, n, num, tok, h2⟩
  · intro env db id body c hc
    simp only [PATCH] at hc
    repeat' split at hc
    all_goals simp at hc
    all_goals try (rcases hc with hc | hc)
    all_goals try subst hc
    all_goals
      first
        | exact Or.inl ⟨_, _, rfl⟩
        | exact Or.inr ⟨_, _, _, _, rfl⟩

/-- Witness for `provider_change_drops_local_fields`: a live PATCH carrying a
label addition records an `updateIssue` call whose change consists of
exactly the request's labels/assignees/state facets. -/
theorem provider_change_drops_local_fields_witness :
    (∃ u p, ExtCall.updateIssue "o" "n" 7 "tok"
        ⟨some ⟨some ["bug"], none⟩, none, none⟩ = ExtCall.resolveToken u p) ∨
    ∃ o n num tok, ExtCall.updateIssue "o" "n" 7 "tok"
        ⟨some ⟨some ["bug"], none⟩, none, none⟩ =
      ExtCall.updateIssue o n num tok
        { labels := some ⟨some ["bug"], none⟩, assignees := none, state := none } :=
  provider_change_drops_local_fields.2.2.2
    ⟨some "u1", 3, fun _ => "tid", .ok ()⟩
    ⟨[⟨"r1", "u1", "github", "o", "n", "live", true, none⟩],
     [⟨"i1", "r1", "github", 7, "t", none, none, none, .isOpen, [], [], "u", "pid", 1, 2, 0⟩],
     [], [], [⟨"u1", "github", some "tok"⟩], []⟩
    "i1" { labels := some ⟨some ["bug"], none⟩ }
    (ExtCall.updateIssue "o" "n" 7 "tok" ⟨some ⟨some ["bug"], none⟩, none, none⟩)
    (by decide)

/-- C9: in `ghFetch`, a 403 response whose headers report zero remaining
rate-limit quota and a reset time causes exactly one retry of the request
after a single sleep of `min(max(0, reset·1000 − now) + 1000, 60000)` ms —
until the reset time (plus a one-second buffer), capped at 60 seconds — and
the retry's response is returned as-is with no further retry; every other
response is returned immediately with no sleep and no retry. -/
theorem ghFetch_rate_limit_retry (env : GhEnv) :
    (∀ resetAt : Int, (env.response 0).status = 403 →
      (env.response 0).remaining = some "0" → (env.response 0).resetAt = some resetAt →
      ghFetch env =
        { fetchCount := 2,
          sleeps := [min (max 0 (resetAt * 1000 - env.now) + 1000) 60000],
          response := env.response 1 } ∧
      min (max 0 (resetAt * 1000 - env.now) + 1000) 60000 ≤ 60000) ∧
    (((env.response 0).status ≠ 403 ∨ (env.response 0).remaining ≠ some "0" ∨
        (env.response 0).resetAt = none) →
      ghFetch env = { fetchCount := 1, sleeps := [], response := env.response 0 }) := by
  constructor
  · intro resetAt h1 h2 h3
    refine ⟨?_, min_le_right _ _⟩
    simp [ghFetch, h1, h2, h3]
  · intro h
    by_cases hst : (env.response 0).status = 403
    · rcases h with h | h | h
      · exact absurd hst h
      · cases hr : (env.response 0).remaining with
        | none => simp [ghFetch, hst, hr]
        | some v =>
          have hv : v ≠ "0" := by
            rintro rfl
            exact h hr
          cases hra : (env.response 0).resetAt with
          | none => simp [ghFetch, hst, hr, hra]
          | some ra => simp [ghFetch, hst, hr, hra, hv]
      · cases hr : (env.response 0).remaining with
        | none => simp [ghFetch, hst, hr]
        | some v => simp [ghFetch, hst, hr, h]
    · have hb : ((env.response 0).status == 403) = false := by
        simp [hst]
      simp [ghFetch, hb]

/-- Witness for `ghFetch_rate_limit_retry`: a rate-limited 403 with a far
reset time is retried exactly once after the capped 60-second sleep. -/
theorem ghFetch_rate_limit_retry_witness :
    ghFetch ⟨0, fun i => if i == 0 then ⟨403, some "0", some 100⟩ else ⟨200, none, none⟩⟩ =
      { fetchCount := 2, sleeps := [60000], response := ⟨200, none, none⟩ } := by
  have h := (ghFetch_rate_limit_retry
    ⟨0, fun i => if i == 0 then ⟨403, some "0", some 100⟩ else ⟨200, none, none⟩⟩).1
    100 rfl rfl rfl
  rw [h.1]
  decide

end SnapTriage
